import Mathlib

/-!
Verification development for the vessels value-transport runtime.

The definitions below are shallow embeddings of the Rust source:
  * src/src/value.rs        (Value impls, IdChannel, ChannelItem wire form)
  * src/src/kind/sink.rs    (Kind for Sink: deconstruct loop)
  * src/src/format/as_bytes.rs (AsBytes format adapter)
  * src/src/reflection/mod.rs  (Cast / Erased interface)
  * src/vessels_derive/src/lib.rs (generated remote proxy)

Channels are modelled as explicit lists of frames, stateful code as
explicit state passing, and fallible or panicking code as Option /
Except / explicit panic-aware result types.
-/

namespace Vessels

/-! ## Primitive Value implementations (src/src/value.rs, primitive_impl and Value for ()) -/

/-- Embeds the body of the primitive_impl macro for every listed primitive
type: deconstruct is `channel.send(self).then(|_| Ok(()))`, i.e. exactly one
frame containing the value is sent on the channel. The channel is modelled as
the list of frames sent on it. -/
def primitiveDeconstruct {α : Type} (v : α) : List α := [v]

/-- Embeds primitive construct: `channel.into_future().map(|v| v.0.unwrap())`,
i.e. await the first inbound frame and return its value; the `unwrap` panics
when the stream is exhausted, modelled by the `none` case of `head?`. -/
def primitiveConstruct {α : Type} (frames : List α) : Option α := frames.head?

/-- Embeds `Value for ()`: deconstruct is `Box::new(ok(()))`, which sends no
frame at all on the channel. -/
def unitDeconstruct : List Unit := []

/-- Embeds `Value for ()` construct: `Box::new(ok(()))`, which resolves
immediately with `()` without awaiting any inbound frame. -/
def unitConstruct (_frames : List Unit) : Option Unit := some ()

/-! ## IdChannelFork Fork stubs (src/src/value.rs, impl Fork for IdChannelFork) -/

/-- The wire representation of a fork id, `pub struct ForkRef(u64)`. -/
structure ForkRef where
  id : Nat
deriving DecidableEq, Repr

/-- Embeds `IdChannelFork::fork`: the body is `ForkRef(0)`; the argument value
is ignored and the constant fork id 0 is returned on every call. -/
def idChannelForkFork {α : Type} (_value : α) : ForkRef := ⟨0⟩

/-- Embeds `IdChannelFork::get_fork`: the body is `Box::new(empty())`, the
`futures::future::empty()` future, which is never ready. Polling it any number
of times yields nothing, modelled as a function of the poll count. -/
def idChannelForkGetFork (α : Type) (_forkRef : ForkRef) (_polls : Nat) : Option α := none

/-! ## IdChannel and Target::new_with (src/src/value.rs) -/

/-- A frame on the multiplexed wire, `pub struct ChannelItem(pub u64, pub
Box<dyn SerdeAny>)`. The boxed erased payload is modelled by its dynamic type
id (`tag`, the TypeId of the boxed value) together with its value over an
abstract payload type. -/
structure ChannelItem (π : Type) where
  channel : Nat
  tag : Nat
  data : π
deriving DecidableEq, Repr

/-- The process-global state of src/src/value.rs: the fork id allocator
`IDX: AtomicU64` and the fork type registry
`CHANNELS: Mutex<HashMap<u64, [TypeId; 2]>>`, mapping a fork id to the pair
(ConstructItem type id, DeconstructItem type id). -/
structure GlobalState where
  idx : Nat
  channels : List (Nat × (Nat × Nat))
deriving DecidableEq, Repr

/-- The `IdChannel` returned by `Target::new_with`: its only field is
`out_channel`, the outbound stream of ChannelItems. `rootId` records the fork
id the instance tagged its outbound frames with (the `first_channel` captured
by the closure in `new_with`). -/
structure IdChannelModel (π : Type) where
  rootId : Nat
  outChannel : List (ChannelItem π)
deriving DecidableEq, Repr

/-- Embeds `impl Target for IdChannel { fn new_with }`: fetch-and-add the
global IDX counter to obtain `first_channel`, insert the ConstructItem and
DeconstructItem type ids for V into CHANNELS, spawn `value.deconstruct` onto a
fresh IdChannelFork (the frames that task sends are the argument
`deconstructOut`, each tagged with the payload type ConstructItem = `ctId`),
and return the IdChannel whose out stream maps each such frame to
`ChannelItem(first_channel, v)`. -/
def newWith (st : GlobalState) (ctId dtId : Nat) (deconstructOut : List π) :
    GlobalState × IdChannelModel π :=
  let firstChannel := st.idx
  (⟨st.idx + 1, (firstChannel, (ctId, dtId)) :: st.channels⟩,
   ⟨firstChannel, deconstructOut.map (fun v => ⟨firstChannel, ctId, v⟩)⟩)

/-- Embeds `impl Sink for IdChannel { fn start_send }`: the body is `Err(())`;
every inbound ChannelItem offered to the sink is rejected with an error and
never consumed. -/
def idChannelStartSend {π : Type} (_ch : IdChannelModel π) (_item : ChannelItem π) :
    Except Unit Unit := .error ()

/-- Embeds `impl Sink for IdChannel { fn poll_complete }`: the body is
`Err(())`. -/
def idChannelPollComplete {π : Type} (_ch : IdChannelModel π) : Except Unit Unit := .error ()

/-! ## ChannelItem wire form (src/src/value.rs, Serialize / Deserialize for ChannelItem) -/

/-- A structured value as a serde (de)serializer sees it: either an integer
(the fork id) or an erased payload, carried with the type id of the concrete
type it is an encoding of. -/
inductive WireVal (π : Type) where
  | num : Nat → WireVal π
  | payload : Nat → π → WireVal π
deriving DecidableEq, Repr

/-- The two wire shapes `Serialize for ChannelItem` can produce: a string-keyed
map (human-readable formats) or a sequence (binary formats). -/
inductive WireForm (π : Type) where
  | map : List (String × WireVal π) → WireForm π
  | seq : List (WireVal π) → WireForm π
deriving DecidableEq, Repr

/-- Result of running a deserializer over hostile input: success, a serde
error reported to the caller, or a Rust panic. -/
inductive DRes (α : Type) where
  | ok : α → DRes α
  | err : DRes α
  | panicked : DRes α
deriving DecidableEq, Repr

/-- Embeds `impl Serialize for ChannelItem`: on a human-readable serializer it
emits the map with entries ("channel", fork id) then ("data", payload); on a
binary serializer it emits the two-element sequence [fork id, payload]. -/
def serializeChannelItem (humanReadable : Bool) (item : ChannelItem π) : WireForm π :=
  if humanReadable then
    .map [("channel", .num item.channel), ("data", .payload item.tag item.data)]
  else
    .seq [.num item.channel, .payload item.tag item.data]

/-- Embeds `impl DeserializeSeed for Id` for the payload of fork `ch`: look up
the fork in CHANNELS (`.get(&self.0).unwrap()` panics when absent), find the
registered deserializer for the recorded ConstructItem type id in the
inventory (`.find(..).unwrap()` panics when absent), and run it; a payload
that is not an encoding of that type makes the deserializer fail, and the
failure is turned into a panic by `.map_err(|_| panic!())`. On success the
produced box's dynamic type is the recorded ConstructItem type id. -/
def idSeedDeserialize (channels : List (Nat × (Nat × Nat))) (inventory : List Nat)
    (ch : Nat) (v : WireVal π) : DRes (Nat × π) :=
  match channels.lookup ch with
  | none => .panicked
  | some ty =>
    if inventory.contains ty.1 then
      match v with
      | .payload tag p => if tag = ty.1 then .ok (tag, p) else .panicked
      | .num _ => .panicked
    else .panicked

/-- Embeds the loop of `ItemVisitor::visit_map`, tracking the `channel` and
`data` options: a repeated key is reported as a duplicate-field serde error; a
"data" entry seen while `channel` is still `None` hits `channel.unwrap()` and
panics; any key other than "channel" and "data" hits the `_ => panic!()` arm;
after the loop, a missing field is reported as a serde error, otherwise the
ChannelItem is assembled. -/
def visitMapGo (channels : List (Nat × (Nat × Nat))) (inventory : List Nat) :
    List (String × WireVal π) → Option Nat → Option (Nat × π) → DRes (ChannelItem π)
  | [], channelField, dataField =>
    match channelField, dataField with
    | some ch, some (t, d) => .ok ⟨ch, t, d⟩
    | none, _ => .err
    | some _, none => .err
  | (k, v) :: rest, channelField, dataField =>
    if k = "channel" then
      match channelField with
      | some _ => .err
      | none =>
        match v with
        | .num n => visitMapGo channels inventory rest (some n) dataField
        | .payload _ _ => .err
    else if k = "data" then
      match dataField with
      | some _ => .err
      | none =>
        match channelField with
        | none => .panicked
        | some ch =>
          match idSeedDeserialize channels inventory ch v with
          | .ok tp => visitMapGo channels inventory rest channelField (some tp)
          | .err => .err
          | .panicked => .panicked
    else .panicked

/-- Embeds `impl Deserialize for ChannelItem`: a human-readable deserializer
dispatches `deserialize_map(ItemVisitor)` (non-map input is a format error), a
binary one dispatches `deserialize_seq(ItemVisitor)`; ItemVisitor implements
no `visit_seq`, so the binary path always fails with serde's default
invalid-type error; in both branches every error is converted into a panic by
`.map_err(|e| { println!(..); panic!(); })`. -/
def deserializeChannelItem (humanReadable : Bool) (channels : List (Nat × (Nat × Nat)))
    (inventory : List Nat) (input : WireForm π) : DRes (ChannelItem π) :=
  if humanReadable then
    match input with
    | .map entries =>
      match visitMapGo channels inventory entries none none with
      | .ok item => .ok item
      | _ => .panicked
    | .seq _ => .panicked
  else
    .panicked

/-! ## Kind for Sink, deconstruct (src/src/kind/sink.rs) -/

/-- The collaborators of `Sink::deconstruct`, generic over the channel and the
underlying sink exactly as the Rust code is generic over `C: Channel` and
`self: Sink<T, E>`: `resolve` is the value `channel.get_fork::<T>(handle)`
materializes for a handle (the `.unwrap()` on its result is modelled by
resolution being total), and `send` is the underlying sink's stateful send,
returning the new sink state and the error of a failed send, if any. -/
structure DeconsEnv (T E σ : Type) where
  resolve : Nat → T
  send : σ → T → σ × Option E

/-- Everything `Sink::deconstruct` has produced when the inbound channel is
exhausted: the final state of the underlying sink, the next free fork id of
the channel, the trace of items fed to the underlying sink, the forks of `E`
allocated for failed sends (handle and carried error), and the reply handles
sent back on the channel. -/
structure DeconsOut (T E σ : Type) where
  sink : σ
  nextFork : Nat
  fed : List T
  errForks : List (Nat × E)
  replies : List Nat

/-- Embeds the `while let Some(handle) = channel.next().await` loop of
`Sink for Kind::deconstruct`: for each inbound ForkHandle, materialize the
item via `get_fork::<T>` and feed it to the underlying sink with
`self.send(..)`; when the send fails with an error, allocate a fork of `E`
carrying the error (`channel.fork::<E>(error)`, modelled by the monotone
counter `k`) and send the allocated handle back on the channel (the
`channel.send(handle).await?` is modelled as succeeding; its early error exit
is out of scope here); return `Ok(())` when the inbound channel is
exhausted. -/
def sinkDeconstruct (env : DeconsEnv T E σ) :
    List Nat → σ → Nat → DeconsOut T E σ
  | [], s, k => ⟨s, k, [], [], []⟩
  | h :: rest, s, k =>
    let item := env.resolve h
    let res := env.send s item
    match res.2 with
    | none =>
      let o := sinkDeconstruct env rest res.1 k
      { o with fed := item :: o.fed }
    | some e =>
      let o := sinkDeconstruct env rest res.1 (k + 1)
      { o with fed := item :: o.fed,
               errForks := (k, e) :: o.errForks,
               replies := k :: o.replies }

/-- The errors a stateful sink reports when fed a list of items in order;
used to state which sends inside `Sink::deconstruct` fail. -/
def sinkFailures (send : σ → T → σ × Option E) : σ → List T → List E
  | _, [] => []
  | s, t :: ts =>
    match (send s t).2 with
    | none => sinkFailures send (send s t).1 ts
    | some e => e :: sinkFailures send (send s t).1 ts

/-! ## Generated remote proxy (src/vessels_derive/src/lib.rs, generate_binds) -/

/-- The state of the generated `Concrete_Remote` proxy: the FIFO queue of
outgoing Calls (`VecDeque`, front at the head), the free-id list and `last_id`
counter backing `next_id`, and the registered response sub-channels keyed by
protocol id (only the keys matter here). -/
structure ConcreteRemote (Call : Type) where
  queue : List Call
  ids : List Nat
  lastId : Nat
  channels : List Nat

/-- Embeds `Concrete_Remote::next_id`: pop a recycled id from `ids` if one is
available, otherwise fetch-and-add `last_id`. -/
def nextId (r : ConcreteRemote Call) : Nat × ConcreteRemote Call :=
  match r.ids with
  | id :: rest => (id, { r with ids := rest })
  | [] => (r.lastId, { r with lastId := r.lastId + 1 })

/-- Embeds the generated proxy method body (generate_remote_impl): allocate a
protocol id with `next_id`, insert the per-method response sub-channel into
`channels` under that id, push the Call frame (closing over the arguments and
the protocol id, abstracted as `mkCall`) onto the back of the outbound queue,
and notify the outbound task. -/
def invokeMethod (r : ConcreteRemote Call) (mkCall : Nat → Call) : ConcreteRemote Call :=
  let pr := nextId r
  { pr.2 with channels := pr.1 :: pr.2.channels, queue := pr.2.queue ++ [mkCall pr.1] }

/-- Embeds `impl Stream for Concrete_Remote { fn poll }`: pop the front of the
outbound queue if nonempty, otherwise register the task and report not
ready. -/
def pollOutbound (r : ConcreteRemote Call) : Option Call × ConcreteRemote Call :=
  match r.queue with
  | item :: rest => (some item, { r with queue := rest })
  | [] => (none, r)

/-- Performs a finite sequence of method invocations on the proxy, in order. -/
def invokeAll (r : ConcreteRemote Call) : List (Nat → Call) → ConcreteRemote Call
  | [] => r
  | m :: ms => invokeAll (invokeMethod r m) ms

/-- The frames obtained by repeatedly polling the proxy's outbound stream
(with fuel bounding the number of polls). -/
def streamOut : Nat → ConcreteRemote Call → List Call
  | 0, _ => []
  | fuel + 1, r =>
    match pollOutbound r with
    | (some c, r2) => c :: streamOut fuel r2
    | (none, _) => []

/-- The Call frames the invocation sequence should put on the wire, in
invocation order, each closed over the protocol id allocated for it. -/
def expectedCalls (r : ConcreteRemote Call) : List (Nat → Call) → List Call
  | [] => []
  | m :: ms => m (nextId r).1 :: expectedCalls (invokeMethod r m) ms

/-! ## Reflected-object casts (src/src/reflection/mod.rs) -/

/-- An erased reflected object: its own interface type id (`Trait::this`),
the type ids of its supertrait interfaces (`Trait::supertraits`), and the
underlying value it owns. -/
structure ErasedObject (π : Type) where
  thisTy : Nat
  supers : List Nat
  value : π
deriving DecidableEq, Repr

/-- Modelled from the spec: the `Erased::cast` implementation is generated by
the object macro and is not in the source tree; per the spec, a cast succeeds
iff the requested type id equals the object's own type id, yielding the owning
handle, and fails with `CastError { target }` otherwise. -/
def castErased (obj : ErasedObject π) (ty : Nat) : Except Nat (ErasedObject π) :=
  if ty = obj.thisTy then .ok obj else .error ty

/-- Modelled from the spec: the generated `Trait::upcast_erased` succeeds iff
the requested type id is in the supertrait list, yielding an erased handle
whose own type id is now the requested supertrait interface. -/
def upcastErased (obj : ErasedObject π) (ty : Nat) : Except Nat (ErasedObject π) :=
  if ty ∈ obj.supers then .ok { obj with thisTy := ty } else .error ty

/-- Embeds `Cast::downcast` (src/src/reflection/mod.rs): erase the object and
`cast` it to the requested type id, reinterpreting the successful result. -/
def downcast (obj : ErasedObject π) (ty : Nat) : Except Nat (ErasedObject π) :=
  castErased obj ty

/-- Embeds `Cast::upcast` (src/src/reflection/mod.rs): `upcast_erased` to the
requested type id, then downcast the erased result to the requested
interface. -/
def upcast (obj : ErasedObject π) (ty : Nat) : Except Nat (ErasedObject π) :=
  match upcastErased obj ty with
  | .ok e => downcast e ty
  | .error t => .error t

/-! ## AsBytes format adapter (src/src/format/as_bytes.rs) -/

/-- A UTF-8 continuation byte, 0x80 through 0xBF. -/
def isCont (b : Nat) : Bool := decide (0x80 ≤ b ∧ b ≤ 0xBF)

/-- A valid two-byte leading byte of std's run_utf8_validation table:
0xC2 through 0xDF (0xC0 and 0xC1 would be overlong). -/
def twoByteOk (b : Nat) : Bool := decide (0xC2 ≤ b ∧ b ≤ 0xDF)

/-- A valid three-byte leading byte paired with its first continuation byte,
per std's run_utf8_validation table: 0xE0 requires 0xA0-0xBF (excluding
overlong forms), 0xE1-0xEC and 0xEE-0xEF take any continuation byte, and 0xED
requires 0x80-0x9F (excluding the surrogate range). -/
def threeByteOk (b c1 : Nat) : Bool :=
  decide ((b = 0xE0 ∧ 0xA0 ≤ c1 ∧ c1 ≤ 0xBF) ∨
    (((0xE1 ≤ b ∧ b ≤ 0xEC) ∨ (0xEE ≤ b ∧ b ≤ 0xEF)) ∧ (0x80 ≤ c1 ∧ c1 ≤ 0xBF)) ∨
    (b = 0xED ∧ 0x80 ≤ c1 ∧ c1 ≤ 0x9F))

/-- A valid four-byte leading byte paired with its first continuation byte,
per std's run_utf8_validation table: 0xF0 requires 0x90-0xBF (excluding
overlong forms), 0xF1-0xF3 take any continuation byte, and 0xF4 requires
0x80-0x8F (excluding codepoints above 0x10FFFF). -/
def fourByteOk (b c1 : Nat) : Bool :=
  decide ((b = 0xF0 ∧ 0x90 ≤ c1 ∧ c1 ≤ 0xBF) ∨
    ((0xF1 ≤ b ∧ b ≤ 0xF3) ∧ (0x80 ≤ c1 ∧ c1 ≤ 0xBF)) ∨
    (b = 0xF4 ∧ 0x80 ≤ c1 ∧ c1 ≤ 0x8F))

/-- Embeds the validation performed by `String::from_utf8` (the standard
library's run_utf8_validation, which AsBytes::deserialize invokes and
unwraps): ASCII bytes stand alone; a multi-byte sequence needs its leading
byte and first continuation byte to satisfy the byte-range table above and
the remaining continuation bytes to be 0x80-0xBF; anything else, including a
truncated sequence, is invalid. The theorem utf8Valid_iff_exists_encoding
below checks this table against the encoding-based definition of UTF-8
validity. -/
def utf8Valid : List Nat → Bool
  | [] => true
  | b :: rest =>
    if b ≤ 0x7F then utf8Valid rest
    else
      match rest with
      | [] => false
      | c1 :: rest1 =>
        if twoByteOk b then isCont c1 && utf8Valid rest1
        else
          match rest1 with
          | [] => false
          | c2 :: rest2 =>
            if threeByteOk b c1 then isCont c2 && utf8Valid rest2
            else
              match rest2 with
              | [] => false
              | c3 :: rest3 =>
                if fourByteOk b c1 then isCont c2 && isCont c3 && utf8Valid rest3
                else false

/-- The UTF-8 encoding of a single Unicode scalar value, by its standard
width classes. Used only to state what a valid UTF-8 byte vector is. -/
def encodeScalar (cp : Nat) : List Nat :=
  if cp ≤ 0x7F then [cp]
  else if cp ≤ 0x7FF then [0xC0 + cp / 64, 0x80 + cp % 64]
  else if cp ≤ 0xFFFF then [0xE0 + cp / 4096, 0x80 + cp / 64 % 64, 0x80 + cp % 64]
  else [0xF0 + cp / 262144, 0x80 + cp / 4096 % 64, 0x80 + cp / 64 % 64, 0x80 + cp % 64]

/-- A Unicode scalar value: any codepoint below 0x110000 that is not a
surrogate. -/
def IsScalar (cp : Nat) : Prop := cp < 0x110000 ∧ ¬(0xD800 ≤ cp ∧ cp ≤ 0xDFFF)

/-- Embeds `AsBytes::<F>::deserialize`: `String::from_utf8(item).unwrap()`
panics on input bytes that are not valid UTF-8; on valid input the resulting
string is handed to the inner format's deserialize (abstracted as
`deserializeF` over the string's bytes, which are the input bytes). The
signature has no error channel, so no outcome is ever an error result. -/
def asBytesDeserialize (deserializeF : List Nat → ρ) (bytes : List Nat) : DRes ρ :=
  if utf8Valid bytes then .ok (deserializeF bytes) else .panicked

end Vessels

/-- C1 counterexample: the claim states that deconstructing every primitive
value, including the zero-sized unit, sends exactly one frame containing the
value. `Value for ()` has its own impl whose deconstruct is `Box::new(ok(()))`:
it sends no frame at all, so at the concrete input `()` the claim fails. -/
theorem Vessels.unit_deconstruct_sends_no_frame :
    ¬ (Vessels.unitDeconstruct = [()]) := by
  decide

/-- C1 amended: for every primitive handled by the primitive_impl macro,
deconstruct sends exactly one frame containing the value and construct awaits
one frame and returns its value, so construct after deconstruct returns the
value itself; the unit impl sends no frame and constructs immediately, so its
round trip also returns the value. -/
theorem Vessels.primitive_roundtrip {α : Type} (v : α) :
    Vessels.primitiveDeconstruct v = [v] ∧
    Vessels.primitiveConstruct (Vessels.primitiveDeconstruct v) = some v ∧
    Vessels.unitDeconstruct = [] ∧
    Vessels.unitConstruct Vessels.unitDeconstruct = some () :=
  ⟨rfl, rfl, rfl, rfl⟩

/-- C3 counterexample: at the concrete global state with fork counter 1 (any
state but the pristine one, e.g. after a first channel has been created),
`new_with` does not allocate fork 0 as the root, and the returned object,
viewed as a sink, rejects the concrete inbound frame (0, 7) with an error
rather than consuming it (`start_send` is `Err(())`). -/
theorem Vessels.newWith_root_not_zero_and_sink_rejects :
    ¬ ((Vessels.newWith ⟨1, []⟩ 5 6 ([42] : List Nat)).2.rootId = 0) ∧
    ¬ (Vessels.idChannelStartSend (Vessels.newWith ⟨1, []⟩ 5 6 ([42] : List Nat)).2
        ⟨0, 5, 7⟩ = .ok ()) := by
  refine ⟨by decide, ?_⟩
  simp [Vessels.idChannelStartSend]

/-- C3 amended: `new_with` allocates the next value of the process-global fork
counter as the root fork id (0 exactly when the counter is fresh), increments
the counter, records the fork's ConstructItem and DeconstructItem type ids in
the registry, spawns the value's deconstruct onto the root sub-channel, and
returns an object that, viewed as a stream, yields that task's outbound frames
as ChannelItems tagged with the root fork id; viewed as a sink it rejects
every inbound ChannelItem with an error instead of consuming it. -/
theorem Vessels.newWith_behaviour {π : Type} (st : Vessels.GlobalState)
    (ctId dtId : Nat) (out : List π) (item : Vessels.ChannelItem π) :
    (Vessels.newWith st ctId dtId out).2.rootId = st.idx ∧
    (Vessels.newWith st ctId dtId out).1.idx = st.idx + 1 ∧
    (Vessels.newWith st ctId dtId out).1.channels
      = (st.idx, (ctId, dtId)) :: st.channels ∧
    (Vessels.newWith st ctId dtId out).2.outChannel
      = out.map (fun v => ⟨st.idx, ctId, v⟩) ∧
    Vessels.idChannelStartSend (Vessels.newWith st ctId dtId out).2 item = .error () :=
  ⟨rfl, rfl, rfl, rfl, rfl⟩

/-- C2: the claim states that every two ForkIds allocated by fork calls within
one IdChannel lifetime are distinct. The code of `IdChannelFork::fork` returns
`ForkRef(0)` unconditionally, so two successive allocations (here of the values
1 and 2) return the same id 0, contradicting the claim. -/
theorem Vessels.fork_always_returns_zero :
    Vessels.idChannelForkFork 1 = Vessels.ForkRef.mk 0 ∧
    Vessels.idChannelForkFork 2 = Vessels.ForkRef.mk 0 ∧
    Vessels.idChannelForkFork 1 = Vessels.idChannelForkFork 2 := by
  exact ⟨rfl, rfl, rfl⟩

/-- C5 counterexample: serializing the concrete ChannelItem (0, payload 7 of
type id 5) to the binary form and deserializing it back fails even though the
fork's ConstructItem type id 5 is recorded in the registry and has a
registered deserializer: ItemVisitor implements no visit_seq, so the binary
path cannot yield any ChannelItem (it panics). -/
theorem Vessels.binary_roundtrip_fails :
    ¬ (Vessels.deserializeChannelItem false [(0, (5, 6))] [5, 6]
        (Vessels.serializeChannelItem false (⟨0, 5, 7⟩ : Vessels.ChannelItem Nat))
      = Vessels.DRes.ok ⟨0, 5, 7⟩) := by
  decide

/-- C5 amended: serialization to a human-readable format produces the map
with entries ("channel", fork id) and ("data", payload), and serialization to
a binary format produces the two-element sequence [fork id, payload];
deserializing the human-readable form, given that the fork's ConstructItem
type is recorded in the registry and its deserializer is registered in the
inventory, yields a ChannelItem with the same fork id and an equal payload;
the binary form cannot be deserialized at all (ItemVisitor has no visit_seq,
so the attempt panics). -/
theorem Vessels.channelItem_wire_shapes_and_human_roundtrip {π : Type}
    (item : Vessels.ChannelItem π) (channels : List (Nat × (Nat × Nat)))
    (inventory : List Nat) (ty : Nat × Nat)
    (hlk : channels.lookup item.channel = some ty)
    (hty : ty.1 = item.tag)
    (hinv : inventory.contains item.tag = true) :
    Vessels.serializeChannelItem true item
      = .map [("channel", .num item.channel), ("data", .payload item.tag item.data)] ∧
    Vessels.serializeChannelItem false item
      = .seq [.num item.channel, .payload item.tag item.data] ∧
    Vessels.deserializeChannelItem true channels inventory
        (Vessels.serializeChannelItem true item) = .ok item ∧
    Vessels.deserializeChannelItem false channels inventory
        (Vessels.serializeChannelItem false item) = .panicked := by
  refine ⟨rfl, rfl, ?_, rfl⟩
  simp only [Vessels.serializeChannelItem, Vessels.deserializeChannelItem,
    Vessels.visitMapGo, Vessels.idSeedDeserialize, if_true, hlk, hty, hinv]
  simp

/-- C5 witness: the amended round-trip statement instantiated at the concrete
item (fork 0, payload 7 of type id 5) with registry [(0, (5, 6))] and
inventory [5]. -/
theorem Vessels.channelItem_wire_shapes_witness :
    (List.lookup 0 [(0, (5, 6))] = some (5, 6)) ∧
    ((5, 6).1 = 5) ∧
    (List.contains [5] 5 = true) ∧
    (Vessels.serializeChannelItem true (⟨0, 5, 7⟩ : Vessels.ChannelItem Nat)
      = .map [("channel", .num 0), ("data", .payload 5 7)] ∧
    Vessels.serializeChannelItem false (⟨0, 5, 7⟩ : Vessels.ChannelItem Nat)
      = .seq [.num 0, .payload 5 7] ∧
    Vessels.deserializeChannelItem true [(0, (5, 6))] [5]
        (Vessels.serializeChannelItem true (⟨0, 5, 7⟩ : Vessels.ChannelItem Nat))
      = .ok ⟨0, 5, 7⟩ ∧
    Vessels.deserializeChannelItem false [(0, (5, 6))] [5]
        (Vessels.serializeChannelItem false (⟨0, 5, 7⟩ : Vessels.ChannelItem Nat))
      = .panicked) :=
  ⟨by decide, by decide, by decide,
   Vessels.channelItem_wire_shapes_and_human_roundtrip ⟨0, 5, 7⟩ [(0, (5, 6))] [5]
     (5, 6) (by decide) (by decide) (by decide)⟩

/-- C6 counterexample: at the concrete malformed input consisting of a map
with the unknown key "version", deserialization panics (the `_ => panic!()`
visitor arm) instead of reporting a Decode error result. -/
theorem Vessels.unknown_key_panics :
    Vessels.deserializeChannelItem true [] []
        (Vessels.WireForm.map [("version", (Vessels.WireVal.num 0 : Vessels.WireVal Nat))])
      = Vessels.DRes.panicked := by
  decide

/-- C6 amended: deserialization of an inbound frame never reports a Decode
error result on malformed or hostile input: the outer Deserialize impl
converts every serde-level error (duplicate field, missing field, wrong value
type, non-map input) into a panic, and an unknown map key, an unknown fork, a
missing registry entry, or a failed payload decode panics directly; every
input thus yields either a ChannelItem or a panic, never an error result. -/
theorem Vessels.deserialize_never_reports_error {π : Type} (humanReadable : Bool)
    (channels : List (Nat × (Nat × Nat))) (inventory : List Nat)
    (input : Vessels.WireForm π) :
    Vessels.deserializeChannelItem humanReadable channels inventory input
      ≠ Vessels.DRes.err := by
  unfold Vessels.deserializeChannelItem
  cases humanReadable with
  | false => simp
  | true =>
    cases input with
    | seq s => simp
    | map entries =>
      cases h : Vessels.visitMapGo channels inventory entries none none <;> simp [h]

/-- C4: the claim states that `get_fork` returns a future completing exactly
when `V::construct` on the fork resolves. The code returns
`futures::future::empty()`, which never completes: polled any number of times
(here over result type Nat) it never yields a value, and it never invokes
`V::construct` at all. -/
theorem Vessels.getFork_never_completes :
    ∀ (polls : Nat), Vessels.idChannelForkGetFork Nat ⟨0⟩ polls = none := by
  intro polls
  rfl

/-- Helper: `next_id` does not touch the outbound queue. -/
theorem Vessels.nextId_queue {Call : Type} (r : Vessels.ConcreteRemote Call) :
    (Vessels.nextId r).2.queue = r.queue := by
  unfold Vessels.nextId
  cases h : r.ids <;> simp

/-- Helper: repeatedly polling the proxy's outbound stream yields exactly the
queue contents, front to back. -/
theorem Vessels.streamOut_queue {Call : Type} (r : Vessels.ConcreteRemote Call) :
    Vessels.streamOut r.queue.length r = r.queue := by
  obtain ⟨q, ids, lastId, channels⟩ := r
  induction q with
  | nil => rfl
  | cons c rest ih =>
    simpa [Vessels.streamOut, Vessels.pollOutbound] using ih

/-- Helper: after a sequence of invocations the outbound queue is the old
queue followed by the generated Call frames in invocation order. -/
theorem Vessels.invokeAll_queue {Call : Type} (r : Vessels.ConcreteRemote Call)
    (ms : List (Nat → Call)) :
    (Vessels.invokeAll r ms).queue = r.queue ++ Vessels.expectedCalls r ms := by
  induction ms generalizing r with
  | nil => simp [Vessels.invokeAll, Vessels.expectedCalls]
  | cons m ms ih =>
    simp only [Vessels.invokeAll, Vessels.expectedCalls]
    rw [ih]
    simp [Vessels.invokeMethod, Vessels.nextId_queue]

/-- C7: for every underlying sink and every inbound sequence of ForkHandles,
`Sink::deconstruct` materializes each handle via `get_fork::<T>` and feeds the
items to the underlying sink in inbound order; every reply it sends on the
channel is the handle of a fork of `E` it allocated, in order; and the errors
carried by those forks are exactly the errors of the failing sends, in order.
The function is total, completing when the inbound channel is exhausted. -/
theorem Vessels.sink_deconstruct_feeds_in_order_and_replies_failures
    {T E σ : Type} (env : Vessels.DeconsEnv T E σ) (handles : List Nat) (s : σ) (k : Nat) :
    (Vessels.sinkDeconstruct env handles s k).fed = handles.map env.resolve ∧
    (Vessels.sinkDeconstruct env handles s k).replies
      = ((Vessels.sinkDeconstruct env handles s k).errForks).map Prod.fst ∧
    ((Vessels.sinkDeconstruct env handles s k).errForks).map Prod.snd
      = Vessels.sinkFailures env.send s (handles.map env.resolve) := by
  induction handles generalizing s k with
  | nil => exact ⟨rfl, rfl, rfl⟩
  | cons h rest ih =>
    simp only [Vessels.sinkDeconstruct, Vessels.sinkFailures, List.map_cons]
    cases hr : (env.send s (env.resolve h)).2 with
    | none =>
      obtain ⟨h1, h2, h3⟩ := ih (env.send s (env.resolve h)).1 k
      simp [hr, h1, h2, h3]
    | some e =>
      obtain ⟨h1, h2, h3⟩ := ih (env.send s (env.resolve h)).1 (k + 1)
      simp [hr, h1, h2, h3]

/-- C8: for every proxy state and every finite sequence of method invocations
performed on it, draining the proxy's outbound stream yields the pending
frames followed by the generated Call frames in exactly invocation order: the
outbound VecDeque is pushed at the back by each method and popped at the
front by the Stream impl, so calls are never reordered. -/
theorem Vessels.remote_calls_fifo {Call : Type} (r : Vessels.ConcreteRemote Call)
    (ms : List (Nat → Call)) :
    Vessels.streamOut (Vessels.invokeAll r ms).queue.length (Vessels.invokeAll r ms)
      = r.queue ++ Vessels.expectedCalls r ms := by
  rw [Vessels.streamOut_queue, Vessels.invokeAll_queue]

/-- C9: for every reflected object and every interface type id in its
supertrait list, upcasting to that interface succeeds and downcasting the
result to the same interface succeeds and returns the very same handle, whose
underlying value (and supertrait list) is that of the original object. -/
theorem Vessels.cast_roundtrip {π : Type} (obj : Vessels.ErasedObject π) (ty : Nat)
    (h : ty ∈ obj.supers) :
    ∃ r : Vessels.ErasedObject π,
      Vessels.upcast obj ty = .ok r ∧
      Vessels.downcast r ty = .ok r ∧
      r.value = obj.value ∧ r.supers = obj.supers ∧ r.thisTy = ty := by
  refine ⟨{ obj with thisTy := ty }, ?_, ?_, rfl, rfl, rfl⟩
  · simp [Vessels.upcast, Vessels.upcastErased, Vessels.downcast, Vessels.castErased, h]
  · simp [Vessels.downcast, Vessels.castErased]

/-- C9 witness: the cast round trip at the concrete object with own type id 3,
supertrait list [7, 9] and value 42, upcast to supertrait 7. -/
theorem Vessels.cast_roundtrip_witness :
    (7 ∈ ([7, 9] : List Nat)) ∧
    (∃ r : Vessels.ErasedObject Nat,
      Vessels.upcast ⟨3, [7, 9], 42⟩ 7 = .ok r ∧
      Vessels.downcast r 7 = .ok r ∧
      r.value = 42 ∧ r.supers = [7, 9] ∧ r.thisTy = 7) :=
  ⟨by decide, Vessels.cast_roundtrip ⟨3, [7, 9], 42⟩ 7 (by decide)⟩

/-- C10: `AsBytes::<F>::deserialize` is total only on valid UTF-8: on every
byte vector that fails UTF-8 validation the `String::from_utf8(..).unwrap()`
panics, on valid input the inner format receives the transcoded string, and in
no case is an error result returned (the signature has no error channel). -/
theorem Vessels.asBytes_deserialize_totality {ρ : Type} (deserializeF : List Nat → ρ)
    (bytes : List Nat) :
    (Vessels.utf8Valid bytes = false →
      Vessels.asBytesDeserialize deserializeF bytes = .panicked) ∧
    (Vessels.utf8Valid bytes = true →
      Vessels.asBytesDeserialize deserializeF bytes = .ok (deserializeF bytes)) ∧
    Vessels.asBytesDeserialize deserializeF bytes ≠ .err := by
  unfold Vessels.asBytesDeserialize
  cases h : Vessels.utf8Valid bytes <;> simp [h]

/-- C10 witness: the byte vector [0xFF] is not valid UTF-8 and AsBytes
deserialization of it panics. -/
theorem Vessels.asBytes_deserialize_totality_witness :
    (Vessels.utf8Valid [255] = false) ∧
    Vessels.asBytesDeserialize (fun l => l.length) [255] = .panicked :=
  ⟨by decide, (Vessels.asBytes_deserialize_totality (fun l => l.length) [255]).1 (by decide)⟩

namespace Vessels

/-- Characterization of a UTF-8 continuation byte. -/
theorem isCont_iff (b : Nat) : isCont b = true ↔ (0x80 ≤ b ∧ b ≤ 0xBF) := by
  simp [isCont]

/-- Characterization of the two-byte leading-byte check. -/
theorem twoByteOk_iff (b : Nat) : twoByteOk b = true ↔ (0xC2 ≤ b ∧ b ≤ 0xDF) := by
  simp [twoByteOk]

/-- Characterization of the three-byte leading/continuation check. -/
theorem threeByteOk_iff (b c1 : Nat) : threeByteOk b c1 = true ↔
    ((b = 0xE0 ∧ 0xA0 ≤ c1 ∧ c1 ≤ 0xBF) ∨
      (((0xE1 ≤ b ∧ b ≤ 0xEC) ∨ (0xEE ≤ b ∧ b ≤ 0xEF)) ∧ (0x80 ≤ c1 ∧ c1 ≤ 0xBF)) ∨
      (b = 0xED ∧ 0x80 ≤ c1 ∧ c1 ≤ 0x9F)) := by
  simp [threeByteOk]

/-- Characterization of the four-byte leading/continuation check. -/
theorem fourByteOk_iff (b c1 : Nat) : fourByteOk b c1 = true ↔
    ((b = 0xF0 ∧ 0x90 ≤ c1 ∧ c1 ≤ 0xBF) ∨
      ((0xF1 ≤ b ∧ b ≤ 0xF3) ∧ (0x80 ≤ c1 ∧ c1 ≤ 0xBF)) ∨
      (b = 0xF4 ∧ 0x80 ≤ c1 ∧ c1 ≤ 0x8F)) := by
  simp [fourByteOk]

/-- Every two-byte chunk accepted by the table is the encoding of a scalar. -/
theorem encode2 (b c1 : Nat) (hb : 0xC2 ≤ b ∧ b ≤ 0xDF) (hc : 0x80 ≤ c1 ∧ c1 ≤ 0xBF) :
    ∃ cp, IsScalar cp ∧ encodeScalar cp = [b, c1] := by
  refine ⟨(b - 0xC0) * 64 + (c1 - 0x80), ⟨by omega, by omega⟩, ?_⟩
  unfold encodeScalar
  rw [if_neg (by omega), if_pos (by omega)]
  simp only [List.cons.injEq, and_true]
  omega

/-- Every three-byte chunk accepted by the table is the encoding of a scalar. -/
theorem encode3 (b c1 c2 : Nat)
    (hb : (b = 0xE0 ∧ 0xA0 ≤ c1 ∧ c1 ≤ 0xBF) ∨
      (((0xE1 ≤ b ∧ b ≤ 0xEC) ∨ (0xEE ≤ b ∧ b ≤ 0xEF)) ∧ (0x80 ≤ c1 ∧ c1 ≤ 0xBF)) ∨
      (b = 0xED ∧ 0x80 ≤ c1 ∧ c1 ≤ 0x9F))
    (hc2 : 0x80 ≤ c2 ∧ c2 ≤ 0xBF) :
    ∃ cp, IsScalar cp ∧ encodeScalar cp = [b, c1, c2] := by
  refine ⟨(b - 0xE0) * 4096 + (c1 - 0x80) * 64 + (c2 - 0x80), ⟨by omega, by omega⟩, ?_⟩
  unfold encodeScalar
  rw [if_neg (by omega), if_neg (by omega), if_pos (by omega)]
  simp only [List.cons.injEq, and_true]
  omega

/-- Every four-byte chunk accepted by the table is the encoding of a scalar. -/
theorem encode4 (b c1 c2 c3 : Nat)
    (hb : (b = 0xF0 ∧ 0x90 ≤ c1 ∧ c1 ≤ 0xBF) ∨
      ((0xF1 ≤ b ∧ b ≤ 0xF3) ∧ (0x80 ≤ c1 ∧ c1 ≤ 0xBF)) ∨
      (b = 0xF4 ∧ 0x80 ≤ c1 ∧ c1 ≤ 0x8F))
    (hc2 : 0x80 ≤ c2 ∧ c2 ≤ 0xBF) (hc3 : 0x80 ≤ c3 ∧ c3 ≤ 0xBF) :
    ∃ cp, IsScalar cp ∧ encodeScalar cp = [b, c1, c2, c3] := by
  refine ⟨(b - 0xF0) * 262144 + (c1 - 0x80) * 4096 + (c2 - 0x80) * 64 + (c3 - 0x80),
    ⟨by omega, by omega⟩, ?_⟩
  unfold encodeScalar
  rw [if_neg (by omega), if_neg (by omega), if_neg (by omega)]
  simp only [List.cons.injEq, and_true]
  omega

/-- The validator consumes one ASCII byte. -/
theorem utf8Valid_cons_ascii (b : Nat) (rest : List Nat) (h : b ≤ 0x7F) :
    utf8Valid (b :: rest) = utf8Valid rest := by
  cases rest with
  | nil => simp [utf8Valid, h]
  | cons c1 rest1 =>
    cases rest1 with
    | nil => simp [utf8Valid, h]
    | cons c2 rest2 =>
      cases rest2 with
      | nil => simp [utf8Valid, h]
      | cons c3 rest3 => simp [utf8Valid, h]

/-- The validator consumes an accepted two-byte sequence. -/
theorem utf8Valid_cons_two (b c1 : Nat) (rest : List Nat)
    (h1 : ¬ b ≤ 0x7F) (h2 : twoByteOk b = true) :
    utf8Valid (b :: c1 :: rest) = (isCont c1 && utf8Valid rest) := by
  cases rest with
  | nil => simp [utf8Valid, h1, h2]
  | cons c2 rest2 =>
    cases rest2 with
    | nil => simp [utf8Valid, h1, h2]
    | cons c3 rest3 => simp [utf8Valid, h1, h2]

/-- The validator consumes an accepted three-byte sequence. -/
theorem utf8Valid_cons_three (b c1 c2 : Nat) (rest : List Nat)
    (h1 : ¬ b ≤ 0x7F) (h2 : twoByteOk b = false) (h3 : threeByteOk b c1 = true) :
    utf8Valid (b :: c1 :: c2 :: rest) = (isCont c2 && utf8Valid rest) := by
  cases rest with
  | nil => simp [utf8Valid, h1, h2, h3]
  | cons c3 rest3 => simp [utf8Valid, h1, h2, h3]

/-- The validator consumes an accepted four-byte sequence. -/
theorem utf8Valid_cons_four (b c1 c2 c3 : Nat) (rest : List Nat)
    (h1 : ¬ b ≤ 0x7F) (h2 : twoByteOk b = false) (h3 : threeByteOk b c1 = false)
    (h4 : fourByteOk b c1 = true) :
    utf8Valid (b :: c1 :: c2 :: c3 :: rest) = (isCont c2 && isCont c3 && utf8Valid rest) := by
  simp [utf8Valid, h1, h2, h3, h4]

/-- Prepending the encoding of any scalar preserves validation. -/
theorem utf8Valid_encode_append (cp : Nat) (h : IsScalar cp) (rest : List Nat) :
    utf8Valid (encodeScalar cp ++ rest) = utf8Valid rest := by
  obtain ⟨hlt, hsur⟩ := h
  unfold encodeScalar
  split_ifs with h1 h2 h3
  · simpa using utf8Valid_cons_ascii cp rest h1
  · simp only [List.cons_append, List.nil_append]
    rw [utf8Valid_cons_two _ _ _ (by omega) ((twoByteOk_iff _).mpr (by omega)),
      (isCont_iff _).mpr (by omega), Bool.true_and]
  · simp only [List.cons_append, List.nil_append]
    rw [utf8Valid_cons_three _ _ _ _ (by omega)
        (by rw [Bool.eq_false_iff, Ne, twoByteOk_iff]; omega)
        ((threeByteOk_iff _ _).mpr (by omega)),
      (isCont_iff _).mpr (by omega), Bool.true_and]
  · simp only [List.cons_append, List.nil_append]
    rw [utf8Valid_cons_four _ _ _ _ _ (by omega)
        (by rw [Bool.eq_false_iff, Ne, twoByteOk_iff]; omega)
        (by rw [Bool.eq_false_iff, Ne, threeByteOk_iff]; omega)
        ((fourByteOk_iff _ _).mpr (by omega)),
      (isCont_iff _).mpr (by omega), (isCont_iff _).mpr (by omega), Bool.true_and,
      Bool.true_and]


/-- Every byte vector the table accepts decomposes into encodings of
scalars. -/
theorem exists_encoding_of_utf8Valid : ∀ bytes : List Nat, utf8Valid bytes = true →
    ∃ cps : List Nat, (∀ cp ∈ cps, IsScalar cp) ∧
      bytes = (cps.map encodeScalar).flatten := by
  intro bytes
  induction bytes using utf8Valid.induct with
  | case1 => exact fun _ => ⟨[], by simp, by simp⟩
  | case2 b rest hb ih =>
    intro hv
    rw [utf8Valid_cons_ascii b rest hb] at hv
    obtain ⟨cps, hs, he⟩ := ih hv
    refine ⟨b :: cps, ?_, ?_⟩
    · intro x hx
      rcases List.mem_cons.mp hx with rfl | hx
      · exact ⟨by omega, by omega⟩
      · exact hs x hx
    · have henc : encodeScalar b = [b] := by
        unfold encodeScalar
        rw [if_pos hb]
      simp [henc, ← he]
  | case3 b hb =>
    intro hv
    simp [utf8Valid, hb] at hv
  | case4 b hb c1 rest ht ih =>
    intro hv
    rw [utf8Valid_cons_two b c1 rest hb ht, Bool.and_eq_true] at hv
    obtain ⟨hc, hrest⟩ := hv
    obtain ⟨cps, hs, he⟩ := ih hrest
    obtain ⟨cp, hscp, henc⟩ := encode2 b c1 ((twoByteOk_iff b).mp ht) ((isCont_iff c1).mp hc)
    refine ⟨cp :: cps, ?_, ?_⟩
    · intro x hx
      rcases List.mem_cons.mp hx with rfl | hx
      · exact hscp
      · exact hs x hx
    · simp [henc, ← he]
  | case5 b hb c1 ht =>
    intro hv
    simp [utf8Valid, hb, ht] at hv
  | case6 b hb c1 ht c2 rest h3 ih =>
    intro hv
    rw [utf8Valid_cons_three b c1 c2 rest hb (by simpa using ht) h3,
      Bool.and_eq_true] at hv
    obtain ⟨hc2, hrest⟩ := hv
    obtain ⟨cps, hs, he⟩ := ih hrest
    obtain ⟨cp, hscp, henc⟩ := encode3 b c1 c2 ((threeByteOk_iff b c1).mp h3)
      ((isCont_iff c2).mp hc2)
    refine ⟨cp :: cps, ?_, ?_⟩
    · intro x hx
      rcases List.mem_cons.mp hx with rfl | hx
      · exact hscp
      · exact hs x hx
    · simp [henc, ← he]
  | case7 b hb c1 ht c2 h3 =>
    intro hv
    simp [utf8Valid, hb, ht, h3] at hv
  | case8 b hb c1 ht c2 h3 c3 rest h4 ih =>
    intro hv
    rw [utf8Valid_cons_four b c1 c2 c3 rest hb (by simpa using ht) (by simpa using h3) h4,
      Bool.and_eq_true, Bool.and_eq_true] at hv
    obtain ⟨⟨hc2, hc3⟩, hrest⟩ := hv
    obtain ⟨cps, hs, he⟩ := ih hrest
    obtain ⟨cp, hscp, henc⟩ := encode4 b c1 c2 c3 ((fourByteOk_iff b c1).mp h4)
      ((isCont_iff c2).mp hc2) ((isCont_iff c3).mp hc3)
    refine ⟨cp :: cps, ?_, ?_⟩
    · intro x hx
      rcases List.mem_cons.mp hx with rfl | hx
      · exact hscp
      · exact hs x hx
    · simp [henc, ← he]
  | case9 b hb c1 ht c2 h3 c3 rest h4 =>
    intro hv
    simp [utf8Valid, hb, ht, h3, h4] at hv

/-- The table accepts every concatenation of scalar encodings. -/
theorem utf8Valid_join_encode (cps : List Nat) (hs : ∀ cp ∈ cps, IsScalar cp) :
    utf8Valid ((cps.map encodeScalar).flatten) = true := by
  induction cps with
  | nil => rfl
  | cons cp cps ih =>
    rw [List.map_cons, List.flatten_cons,
      utf8Valid_encode_append cp (hs cp (by simp)) _]
    exact ih (fun x hx => hs x (by simp [hx]))

/-- The embedded run_utf8_validation table accepts a byte vector exactly
when it is the UTF-8 encoding of some sequence of Unicode scalar values:
the table model used by asBytesDeserialize really is UTF-8 validity. -/
theorem utf8Valid_iff_exists_encoding (bytes : List Nat) :
    utf8Valid bytes = true ↔
      ∃ cps : List Nat, (∀ cp ∈ cps, IsScalar cp) ∧
        bytes = (cps.map encodeScalar).flatten := by
  constructor
  · exact exists_encoding_of_utf8Valid bytes
  · rintro ⟨cps, hs, rfl⟩
    exact utf8Valid_join_encode cps hs

end Vessels
